import Mathlib

/-!
Shallow embedding of the toolkit-mcp-server tool-invocation pipeline.

The definitions below are translated from the TypeScript sources:
`src/utils/rate-limiter.ts` (sliding-window `RateLimiter`),
`src/utils/cache.ts` (TTL `Cache` and the counter-based `RateLimiter`),
`src/utils/progress.ts` (`ProgressReporter`, `withProgress`),
`src/utils/errors.ts` (`McpToolError`, `handleToolError`),
`src/tools/geo.ts` (`geolocate` handler) and the dispatcher in
`src/index.ts` (`ToolkitServer.setupHandlers`).

Times are modelled as natural numbers of milliseconds (`Date.now()`).
Thrown JavaScript exceptions are modelled with `Except`.
-/

namespace S2P

/-! ## Sliding-window rate limiter (`src/utils/rate-limiter.ts`) -/

/-- Configuration fields of the `RateLimiter` class
(`maxRequests`, `windowMs`). -/
structure RLConfig where
  maxRequests : Nat
  windowMs : Nat
deriving Repr, DecidableEq

/-- `timestamps.filter(time => now - time < this.windowMs)` — the pruning
step shared by `checkLimit`, `getRemainingRequests`, `getTimeToReset` and
`cleanup`. -/
def validTimestamps (windowMs now : Nat) (timestamps : List Nat) : List Nat :=
  timestamps.filter (fun time => decide (now - time < windowMs))

/-- `Math.ceil(x / 1000)` on a nonnegative integer. -/
def ceilDiv1000 (x : Nat) : Nat := (x + 999) / 1000

/-- `RateLimiter.checkLimit` on the timestamp list of one key: prune expired
timestamps; if at least `maxRequests` remain, throw a `McpToolError` whose
`data.resetInSeconds` is `Math.ceil((oldest + windowMs - now) / 1000)`
(modelled as `.error resetInSeconds`, the stored list unchanged because the
method throws before `this.requests.set`); otherwise store the pruned list
with `now` appended. -/
def checkLimit (cfg : RLConfig) (timestamps : List Nat) (now : Nat) :
    Except Nat (List Nat) :=
  let valid := validTimestamps cfg.windowMs now timestamps
  if cfg.maxRequests ≤ valid.length then
    .error (ceilDiv1000 (valid.headD 0 + cfg.windowMs - now))
  else
    .ok (valid ++ [now])

/-- `RateLimiter.getRemainingRequests` for one key:
`Math.max(0, maxRequests - validTimestamps.length)`.  The method never
writes `this.requests`, so its embedding is a pure function of the stored
timestamps and the clock. -/
def getRemainingRequests (cfg : RLConfig) (timestamps : List Nat) (now : Nat) : Nat :=
  cfg.maxRequests - (validTimestamps cfg.windowMs now timestamps).length

/-- `RateLimiter.getTimeToReset` for one key: `0` when no valid timestamp
remains, else `Math.max(0, oldest + windowMs - now)`.  Also read-only. -/
def getTimeToReset (cfg : RLConfig) (timestamps : List Nat) (now : Nat) : Nat :=
  let valid := validTimestamps cfg.windowMs now timestamps
  if valid.length = 0 then 0
  else valid.headD 0 + cfg.windowMs - now

/-- Run a sequence of `checkLimit` calls for one key, threading the stored
timestamp list.  Returns the final stored list, the times of the calls that
succeeded, and the `resetInSeconds` payloads of the calls that failed. -/
def runCalls (cfg : RLConfig) (state : List Nat) :
    List Nat → List Nat × List Nat × List Nat
  | [] => (state, [], [])
  | now :: rest =>
    match checkLimit cfg state now with
    | .ok s2 =>
      let r := runCalls cfg s2 rest
      (r.1, now :: r.2.1, r.2.2)
    | .error e =>
      let r := runCalls cfg state rest
      (r.1, r.2.1, e :: r.2.2)

/-- Number of elements of `l` lying in the trailing window `(T - w, T]`. -/
def countWindow (w : Nat) (l : List Nat) (T : Nat) : Nat :=
  l.countP (fun s => decide (s ≤ T ∧ T - s < w))

/-- The call times are nondecreasing and bounded below by `t` (the clock of
`Date.now()` never runs backwards). -/
def sortedFrom (t : Nat) (l : List Nat) : Prop :=
  List.Chain (fun a b => a ≤ b) t l

/-! ## TTL cache (`src/utils/cache.ts`, class `Cache`) -/

/-- Association-list lookup modelling `Map.prototype.get`. -/
def mapGet {α : Type} (m : List (String × α)) (k : String) : Option α :=
  (m.find? (fun p => p.1 == k)).map (fun p => p.2)

/-- `Map.prototype.set`: replace the entry for `k` when present (a JS map
holds at most one entry per key), else append at the end (JS maps keep
insertion order). -/
def mapSet {α : Type} (m : List (String × α)) (k : String) (v : α) :
    List (String × α) :=
  match m with
  | [] => [(k, v)]
  | p :: rest => if p.1 == k then (k, v) :: rest else p :: mapSet rest k v

/-- `Map.prototype.delete`. -/
def mapDelete {α : Type} (m : List (String × α)) (k : String) :
    List (String × α) :=
  m.filter (fun p => !(p.1 == k))

/-- State of a `Cache<T>` instance: the key → `{data, timestamp}` map and
the fixed `ttl`. -/
structure CacheState (α : Type) where
  entries : List (String × (α × Nat))
  ttl : Nat

/-- `Cache.set(key, value)`: store `{data: value, timestamp: Date.now()}`. -/
def cacheSet {α : Type} (c : CacheState α) (k : String) (v : α) (now : Nat) :
    CacheState α :=
  { c with entries := mapSet c.entries k (v, now) }

/-- `Cache.get(key)`: absent → `null`; expired (`now - timestamp > ttl`) →
delete the entry and return `null`; else return the stored data.  Returns
the value and the post-state (`get` evicts lazily). -/
def cacheGet {α : Type} (c : CacheState α) (k : String) (now : Nat) :
    Option α × CacheState α :=
  match mapGet c.entries k with
  | none => (none, c)
  | some (v, ts) =>
    if c.ttl < now - ts then
      (none, { c with entries := mapDelete c.entries k })
    else
      (some v, c)

/-- `Cache.clear()`. -/
def cacheClear {α : Type} (c : CacheState α) : CacheState α :=
  { c with entries := [] }

/-- `Cache.prune()`: delete every entry with `now - timestamp > ttl`. -/
def cachePrune {α : Type} (c : CacheState α) (now : Nat) : CacheState α :=
  { c with entries := c.entries.filter (fun p => !(decide (c.ttl < now - p.2.2))) }

/-! ## Counter-based rate limiter (`src/utils/cache.ts`, class `RateLimiter`) -/

/-- Fields of the counter-based `RateLimiter` used by `src/tools/geo.ts`:
`windowMs`, `maxRequests`, the mutable `requests` counter and the mutable
`resetTime` deadline. -/
structure SimpleRL where
  windowMs : Nat
  maxRequests : Nat
  requests : Nat
  resetTime : Nat
deriving Repr, DecidableEq

/-- The constructor `new RateLimiter(maxRequests, windowMs)` evaluated with
`Date.now()` equal to `now`: `requests = 0`, `resetTime = now + windowMs`. -/
def SimpleRL.mk0 (maxRequests windowMs now : Nat) : SimpleRL :=
  { windowMs := windowMs, maxRequests := maxRequests,
    requests := 0, resetTime := now + windowMs }

/-- `canMakeRequest()`: when `now >= resetTime`, reset `requests` to `0` and
move `resetTime` to `now + windowMs` (a write to `this`); then report
whether `requests < maxRequests`.  Returns the answer and the post-state. -/
def canMakeRequest (st : SimpleRL) (now : Nat) : Bool × SimpleRL :=
  let st2 :=
    if st.resetTime ≤ now then
      { st with requests := 0, resetTime := now + st.windowMs }
    else st
  (st2.requests < st2.maxRequests, st2)

/-- `incrementRequests()`. -/
def incrementRequests (st : SimpleRL) : SimpleRL :=
  { st with requests := st.requests + 1 }

/-- `getRemainingRequests()` of the counter-based limiter: performs the same
lapse-reset write as `canMakeRequest` before returning
`Math.max(0, maxRequests - requests)`.  Returns the value and the
post-state. -/
def simpleGetRemaining (st : SimpleRL) (now : Nat) : Nat × SimpleRL :=
  let st2 :=
    if st.resetTime ≤ now then
      { st with requests := 0, resetTime := now + st.windowMs }
    else st
  (st2.maxRequests - st2.requests, st2)

/-- `getTimeToReset()` of the counter-based limiter:
`Math.max(0, resetTime - Date.now())`; it reads but never writes. -/
def simpleGetTimeToReset (st : SimpleRL) (now : Nat) : Nat :=
  st.resetTime - now

/-! ## Geolocation tool (`src/tools/geo.ts`) -/

/-- The fields of an ip-api.com response that the handler inspects or
caches (`GeoLocation`); only `status` influences control flow, the other
fields ride along as payload. -/
structure GeoLocation where
  status : String
  query : String
  country : String
deriving Repr, DecidableEq

/-- What `fetchGeoData` yields: the decoded body and the `X-Rl` / `X-Ttl`
rate-limit headers. -/
structure FetchResult where
  data : GeoLocation
  rlRemaining : Nat
  rlTtl : Nat
deriving Repr, DecidableEq

/-- A successful `geolocate` response: which source the handler reports
(`"cache"` or `"api"`) and the payload it serializes. -/
structure GeoResponse where
  source : String
  data : GeoLocation
deriving Repr, DecidableEq

/-- Module state of `src/tools/geo.ts`: the `geoCache` and the counter-based
`rateLimiter`. -/
structure GeoState where
  cache : CacheState GeoLocation
  limiter : SimpleRL

/-- The `geolocate` handler.  `fetch` is the outcome of the external
`fetchGeoData` call (`.error` models a thrown/rejected fetch).  Returns the
handler outcome (`.error` models a thrown `Error` with that message), the
new module state, and whether an external fetch was performed.
Control flow from the source: cache hit → return `source: 'cache'` with no
fetch; otherwise `canMakeRequest` gate (throwing the retry message on
refusal); otherwise fetch, `incrementRequests`, cache the body only when
`status === 'success'`, and return `source: 'api'`. -/
def geolocate (st : GeoState) (query : String) (now : Nat)
    (fetch : Except String FetchResult) :
    Except String GeoResponse × GeoState × Bool :=
  match cacheGet st.cache query now with
  | (some cached, cache2) =>
    (.ok { source := "cache", data := cached }, { st with cache := cache2 }, false)
  | (none, cache2) =>
    let st := { st with cache := cache2 }
    match canMakeRequest st.limiter now with
    | (false, lim2) =>
      let timeToReset := simpleGetTimeToReset lim2 now
      (.error ("Rate limit exceeded. Please try again in " ++
          toString (ceilDiv1000 timeToReset) ++ " seconds."),
        { st with limiter := lim2 }, false)
    | (true, lim2) =>
      match fetch with
      | .error msg =>
        (.error ("Geolocation failed: " ++ msg), { st with limiter := lim2 }, true)
      | .ok res =>
        let lim3 := incrementRequests lim2
        let cache3 :=
          if res.data.status == "success" then
            cacheSet st.cache query res.data now
          else st.cache
        (.ok { source := "api", data := res.data },
          { cache := cache3, limiter := lim3 }, true)

/-! ## Errors (`src/utils/errors.ts`) -/

/-- A thrown JavaScript error as the pipeline distinguishes them:
a `McpToolError` (with its `ErrorCode` and, for rate-limit errors, the
`resetInSeconds` payload in `data`), or any other `Error`. -/
inductive ThrownError where
  | mcp (code : Int) (message : String) (resetInSeconds : Option Nat)
  | generic (message : String)
deriving Repr, DecidableEq

/-- `error.message`. -/
def errMessage : ThrownError → String
  | .mcp _ m _ => m
  | .generic m => m

/-- `ErrorCode.MethodNotFound` from the MCP SDK (JSON-RPC). -/
def methodNotFound : Int := -32601

/-- `ErrorCode.InternalError` from the MCP SDK (JSON-RPC). -/
def internalError : Int := -32603

/-- One `{type, text}` item of a response envelope. -/
structure ContentItem where
  type : String
  text : String
deriving Repr, DecidableEq

/-- What a tool handler resolves with: `content` plus the optional
`isError` flag (absent ↦ `false`). -/
structure ToolResult where
  content : List ContentItem
  isError : Bool
deriving Repr, DecidableEq

/-- The value `handleToolError(error)` returns: `isError: true` and a single
text item — `"Error <code>: <message>"` (plus a `Details:` line when the
error carries data) for a `McpToolError`, `"Internal error: <message>"`
otherwise. -/
structure ErrEnvelope where
  isError : Bool
  content : List ContentItem
deriving Repr, DecidableEq

/-- `JSON.stringify(error.data)` for the one data shape the pipeline
produces, `{resetInSeconds: n}`; `""` models absent data. -/
def detailsText : Option Nat → String
  | some n => "\nDetails: \x7b\"resetInSeconds\":" ++ toString n ++ "\x7d"
  | none => ""

/-- `handleToolError` (`src/utils/errors.ts`). -/
def handleToolError : ThrownError → ErrEnvelope
  | .mcp code msg d =>
    ⟨true, [⟨"text", "Error " ++ toString code ++ ": " ++ msg ++ detailsText d⟩]⟩
  | .generic msg =>
    ⟨true, [⟨"text", "Internal error: " ++ msg⟩]⟩

/-! ## Progress reporter (`src/utils/progress.ts`) -/

/-- The notifications a `ProgressReporter` emits: `notifications/progress`,
`notifications/progress/complete`, and `notifications/progress/error`
carrying the error message. -/
inductive ProgressEvent where
  | progress
  | complete
  | errorEv (msg : String)
deriving Repr, DecidableEq

/-- Number of completion notifications in an event log. -/
def countComplete (l : List ProgressEvent) : Nat :=
  l.countP (fun e => decide (e = ProgressEvent.complete))

/-- `true` exactly on error notifications. -/
def isErrorEv : ProgressEvent → Bool
  | .errorEv _ => true
  | _ => false

/-- Number of error notifications in an event log. -/
def countErrorEv (l : List ProgressEvent) : Nat :=
  l.countP isErrorEv

/-- The mutable state of one `ProgressReporter`: the `current` counter and
the `console.error` log that accumulates the messages of swallowed
notification failures. -/
structure ReporterState where
  current : Nat
  logged : List String
deriving Repr, DecidableEq

/-- `ProgressReporter.report(increment)`: add to `current`, then try the
notification send; a send failure (`delivered = false`) is caught and only
logged.  The method returns normally in both cases. -/
def reportOp (delivered : Bool) (increment : Nat) (st : ReporterState) :
    ReporterState :=
  let st2 := { st with current := st.current + increment }
  if delivered then st2
  else { st2 with logged := st2.logged ++ ["Failed to send progress notification:"] }

/-- `ProgressReporter.complete()`: try the completion notification; a send
failure is caught and only logged. -/
def completeOp (delivered : Bool) (st : ReporterState) : ReporterState :=
  if delivered then st
  else { st with logged := st.logged ++ ["Failed to send completion notification:"] }

/-- `ProgressReporter.error(err)`: try the error notification; a send
failure is caught and only logged. -/
def errorOp (delivered : Bool) (st : ReporterState) : ReporterState :=
  if delivered then st
  else { st with logged := st.logged ++ ["Failed to send error notification:"] }

/-- What a tool handler does with the reporter and how it ends: the
increments of its successive `progress.report` calls, then either a normal
return or a throw. -/
structure HandlerSpec where
  reports : List Nat
  outcome : Except ThrownError ToolResult

/-- Run the handler's `progress.report` calls; `d i` is whether the `i`-th
notification send is delivered. -/
def runReports : List Nat → (Nat → Bool) → Nat → ReporterState → ReporterState
  | [], _, _, st => st
  | inc :: rest, d, i, st => runReports rest d (i + 1) (reportOp (d i) inc st)

/-- One invocation through `withProgress` as the dispatcher wraps it
(`src/index.ts` lines 156–169): run the handler's reports from a fresh
reporter; when the handler returns, `progress.complete()` runs; when it
throws, `withProgress` catches, sends `progress.error(...)` and rethrows.
`d` gives the delivery outcomes of the report sends and `dTerminal` that of
the terminal send. -/
def invokeWithReporter (h : HandlerSpec) (d : Nat → Bool) (dTerminal : Bool) :
    Except ThrownError ToolResult × ReporterState :=
  let st1 := runReports h.reports d 0 { current := 0, logged := [] }
  match h.outcome with
  | .ok r => (.ok r, completeOp dTerminal st1)
  | .error e => (.error e, errorOp dTerminal st1)

/-! ## Dispatcher (`src/index.ts`, `ToolkitServer.setupHandlers`) -/

/-- `String.prototype.startsWith`. -/
def jsStartsWith (s p : String) : Bool :=
  p.data.isPrefixOf s.data

/-- The three module-level limiters of `src/utils/rate-limiter.ts`. -/
inductive LimiterCat where
  | system
  | network
  | geo
deriving Repr, DecidableEq

/-- The `RateLimitConfig` of each module-level limiter. -/
def catConfig : LimiterCat → RLConfig
  | .system => { maxRequests := 100, windowMs := 60 * 1000 }
  | .network => { maxRequests := 50, windowMs := 60 * 1000 }
  | .geo => { maxRequests := 45, windowMs := 60 * 1000 }

/-- The `errorMessage` of each module-level limiter. -/
def catMessage : LimiterCat → String
  | .system => "Too many system operations. Please try again in a moment."
  | .network => "Too many network operations. Please try again in a moment."
  | .geo => "IP-API rate limit exceeded. Please try again in a moment."

/-- The dispatcher's limiter-selection rules (`src/index.ts` lines
141–153): `get_system` prefix → system; `get_network` prefix, `ping_host`
or `traceroute` → network; `geolocate` → geo; otherwise the system limiter
as default. -/
def selectLimiter (name : String) : LimiterCat :=
  if jsStartsWith name "get_system" then .system
  else if jsStartsWith name "get_network" || name == "ping_host" ||
      name == "traceroute" then .network
  else if name == "geolocate" then .geo
  else .system

/-- The `requests` maps of the three module-level `RateLimiter` instances. -/
structure DispatchState where
  systemMap : List (String × List Nat)
  networkMap : List (String × List Nat)
  geoMap : List (String × List Nat)
deriving Repr, DecidableEq

/-- `RateLimiter.checkLimit(key)` acting on the whole `requests` map:
`this.requests.get(key) || []`, the check, and on success
`this.requests.set(key, validTimestamps)`; on a throw the map is left as it
was. -/
def mapCheckLimit (cfg : RLConfig) (m : List (String × List Nat))
    (key : String) (now : Nat) : Except Nat (List (String × List Nat)) :=
  match checkLimit cfg ((mapGet m key).getD []) now with
  | .error r => .error r
  | .ok ts => .ok (mapSet m key ts)

/-- `checkLimit` on the selected category's limiter, updating only that
limiter's map. -/
def limCheck (st : DispatchState) (cat : LimiterCat) (key : String)
    (now : Nat) : Except Nat DispatchState :=
  match cat with
  | .system =>
    match mapCheckLimit (catConfig .system) st.systemMap key now with
    | .error r => .error r
    | .ok m => .ok { st with systemMap := m }
  | .network =>
    match mapCheckLimit (catConfig .network) st.networkMap key now with
    | .error r => .error r
    | .ok m => .ok { st with networkMap := m }
  | .geo =>
    match mapCheckLimit (catConfig .geo) st.geoMap key now with
    | .error r => .error r
    | .ok m => .ok { st with geoMap := m }

/-- What the `CallToolRequestSchema` handler produces: either a returned
response envelope (`content` plus the `_meta.isError` flag), or a rethrown
`McpToolError` that escapes to the protocol layer. -/
inductive DispatchOutcome where
  | envelope (content : List ContentItem) (isErrorMeta : Bool)
  | thrown (code : Int) (message : String) (resetInSeconds : Option Nat)
deriving Repr, DecidableEq

/-- `true` exactly when the outcome is a returned envelope. -/
def DispatchOutcome.isEnvelope : DispatchOutcome → Bool
  | .envelope _ _ => true
  | .thrown _ _ _ => false

/-- One run of the `CallToolRequestSchema` handler (`src/index.ts` lines
130–186).  Lookup failure throws `MethodNotFound`; the selected limiter's
`checkLimit` may throw the rate-limit `McpToolError`; both are caught by
the trailing `catch`, which rethrows every `McpToolError` and converts any
other error through `handleToolError` into an envelope with
`_meta.isError`.  A handler that returns yields an envelope from its own
`content`/`isError` after `progress.complete()`; a handler that throws has
`progress.error(...)` emitted by `withProgress` before the error reaches
the `catch`.  Returns the outcome, whether the handler was invoked, the new
limiter maps, and the notification events emitted. -/
def dispatch (registry : List (String × HandlerSpec)) (st : DispatchState)
    (name : String) (now : Nat) :
    DispatchOutcome × Bool × DispatchState × List ProgressEvent :=
  match mapGet registry name with
  | none =>
    (.thrown methodNotFound ("Tool not found: " ++ name) none, false, st, [])
  | some h =>
    let cat := selectLimiter name
    match limCheck st cat name now with
    | .error r =>
      (.thrown internalError (catMessage cat) (some r), false, st, [])
    | .ok st2 =>
      let reports := h.reports.map (fun _ => ProgressEvent.progress)
      match h.outcome with
      | .ok result =>
        (.envelope result.content result.isError, true, st2,
          reports ++ [.complete])
      | .error e =>
        let ev := reports ++ [.errorEv (errMessage e)]
        match e with
        | .mcp c m dta => (.thrown c m dta, true, st2, ev)
        | .generic m =>
          (.envelope (handleToolError (.generic m)).content true, true, st2, ev)

/-- The keys of `allTools` in `src/index.ts`: every registered tool name. -/
def allToolNames : List String :=
  ["getCurrentTime", "getSystemInfo", "getLoadAverage",
   "getNetworkInterfaces", "checkConnectivity", "getPublicIP",
   "pingHost", "traceroute",
   "geolocate", "clearGeoCache",
   "generateUUID", "generateQRCode",
   "convertTimezone", "listTimezones",
   "hashData", "compareHashes"]

/-! ## `listTimezones` handler (`src/tools/datetime.ts`) -/

/-- The `listTimezones` handler body on the list returned by
`Intl.supportedValuesOf('timeZone')`: dedupe into `zones`, compute
`filteredZones` by the `region` prefix when a region is given — and return
`zones`, filtered list unused. -/
def listTimezonesHandler (supported : List String) (region : Option String) :
    List String :=
  let zones := supported.eraseDups
  let filteredZones :=
    match region with
    | some r => zones.filter (fun zone => jsStartsWith zone r)
    | none => zones
  zones

/-! ## Helper lemmas -/

/-- `headD 0` of a nonempty list is a member. -/
lemma headD_mem {l : List Nat} (h : l ≠ []) : l.headD 0 ∈ l := by
  cases l with
  | nil => exact absurd rfl h
  | cons a t => simp

/-- Pruning at a later clock subsumes pruning at an earlier one. -/
lemma validTimestamps_idem (w : Nat) {a b : Nat} (hab : a ≤ b) (l : List Nat) :
    validTimestamps w b (validTimestamps w a l) = validTimestamps w b l := by
  unfold validTimestamps
  rw [List.filter_filter]
  apply List.filter_congr
  intro x _
  by_cases hb : b - x < w
  · have ha : a - x < w := lt_of_le_of_lt (Nat.sub_le_sub_right hab x) hb
    simp [ha, hb]
  · simp [hb]

/-- `countWindow` distributes over append. -/
lemma countWindow_append (w : Nat) (l1 l2 : List Nat) (T : Nat) :
    countWindow w (l1 ++ l2) T = countWindow w l1 T + countWindow w l2 T := by
  unfold countWindow
  exact List.countP_append _ _ _

/-- Elements counted in the trailing window at `T` are still unexpired at
any `now` between them and `T`. -/
lemma countWindow_le_valid (w : Nat) (l : List Nat) (T now : Nat)
    (hnowT : now ≤ T) (hle : ∀ s ∈ l, s ≤ now) :
    countWindow w l T ≤ (validTimestamps w now l).length := by
  unfold countWindow validTimestamps
  rw [← List.countP_eq_length_filter]
  apply List.countP_mono_left
  intro s hs hsT
  have h1 : s ≤ T ∧ T - s < w := of_decide_eq_true hsT
  have h2 : s ≤ now := hle s hs
  have : now - s < w := lt_of_le_of_lt (Nat.sub_le_sub_right hnowT s) h1.2
  exact decide_eq_true this

/-- Inductive invariant of a `checkLimit` call sequence for one key:
`state` is the stored timestamp list, `succ` the times of the successful
calls so far, `t` a lower bound on the clock.  Provided `state` and `succ`
prune identically at every future clock and the successes so far respect
the window bound, the whole run keeps the window bound, and every thrown
`resetInSeconds` is positive and at most `⌈windowMs / 1000⌉`. -/
lemma runCalls_invariant (cfg : RLConfig) (times : List Nat) :
    ∀ (state succ : List Nat) (t : Nat),
      sortedFrom t times →
      (∀ s ∈ state, s ≤ t) →
      (∀ s ∈ succ, s ≤ t) →
      (∀ now, t ≤ now →
        validTimestamps cfg.windowMs now state =
          validTimestamps cfg.windowMs now succ) →
      (∀ T, countWindow cfg.windowMs succ T ≤ cfg.maxRequests) →
      (∀ T, countWindow cfg.windowMs (succ ++ (runCalls cfg state times).2.1) T ≤
          cfg.maxRequests) ∧
      (0 < cfg.maxRequests →
        ∀ e ∈ (runCalls cfg state times).2.2,
          0 < e ∧ e ≤ ceilDiv1000 cfg.windowMs) := by
  induction times with
  | nil =>
    intro state succ t _ _ _ _ h4
    refine ⟨fun T => ?_, fun _ e he => ?_⟩
    · simpa [runCalls] using h4 T
    · simp [runCalls] at he
  | cons now rest ih =>
    intro state succ t hsorted h1 h2 h3 h4
    rw [sortedFrom, List.chain_cons] at hsorted
    obtain ⟨htn, hrest⟩ := hsorted
    cases hc : checkLimit cfg state now with
    | ok s2 =>
      have hinv := hc
      simp only [checkLimit] at hinv
      split at hinv
      · exact absurd hinv (by simp)
      · rename_i hguard
        have hs2 : s2 = validTimestamps cfg.windowMs now state ++ [now] :=
          (Except.ok.injEq _ _ |>.mp hinv).symm
        have hlt : (validTimestamps cfg.windowMs now state).length < cfg.maxRequests :=
          Nat.lt_of_not_le hguard
        have h1n : ∀ s ∈ state, s ≤ now := fun s hs => (h1 s hs).trans htn
        have h2n : ∀ s ∈ succ, s ≤ now := fun s hs => (h2 s hs).trans htn
        have H1 : ∀ s ∈ s2, s ≤ now := by
          intro s hs
          rw [hs2, List.mem_append] at hs
          rcases hs with hs | hs
          · exact h1n s (List.mem_of_mem_filter hs)
          · simp at hs; omega
        have H2 : ∀ s ∈ succ ++ [now], s ≤ now := by
          intro s hs
          rw [List.mem_append] at hs
          rcases hs with hs | hs
          · exact h2n s hs
          · simp at hs; omega
        have H3 : ∀ now2, now ≤ now2 →
            validTimestamps cfg.windowMs now2 s2 =
              validTimestamps cfg.windowMs now2 (succ ++ [now]) := by
          intro now2 hnn
          rw [hs2]
          have e1 := validTimestamps_idem cfg.windowMs hnn state
          have e2 := h3 now2 (htn.trans hnn)
          simp only [validTimestamps, List.filter_append] at e1 e2 ⊢
          rw [e1, e2]
        have H4 : ∀ T, countWindow cfg.windowMs (succ ++ [now]) T ≤ cfg.maxRequests := by
          intro T
          rw [countWindow_append]
          by_cases hcond : now ≤ T ∧ T - now < cfg.windowMs
          · have hsing : countWindow cfg.windowMs [now] T = 1 := by
              simp [countWindow, List.countP_cons, hcond]
            have hb1 : countWindow cfg.windowMs succ T ≤
                (validTimestamps cfg.windowMs now succ).length :=
              countWindow_le_valid cfg.windowMs succ T now hcond.1 h2n
            have hb2 := h3 now htn
            rw [← hb2] at hb1
            omega
          · have hsing : countWindow cfg.windowMs [now] T = 0 := by
              simp only [countWindow, List.countP_cons, List.countP_nil]
              simp [hcond]
            have := h4 T
            omega
        have hres := ih s2 (succ ++ [now]) now hrest H1 H2 H3 H4
        refine ⟨fun T => ?_, fun hmax e he => ?_⟩
        · have := hres.1 T
          simp only [runCalls, hc]
          simpa [List.append_assoc] using this
        · apply hres.2 hmax e
          simpa [runCalls, hc] using he
    | error e0 =>
      have hinv := hc
      simp only [checkLimit] at hinv
      split at hinv
      · rename_i hguard
        have he0 : e0 = ceilDiv1000
            ((validTimestamps cfg.windowMs now state).headD 0 + cfg.windowMs - now) :=
          ((Except.error.injEq _ _).mp hinv).symm
        have h1n : ∀ s ∈ state, s ≤ now := fun s hs => (h1 s hs).trans htn
        have h2n : ∀ s ∈ succ, s ≤ now := fun s hs => (h2 s hs).trans htn
        have H3 : ∀ now2, now ≤ now2 →
            validTimestamps cfg.windowMs now2 state =
              validTimestamps cfg.windowMs now2 succ :=
          fun now2 hnn => h3 now2 (htn.trans hnn)
        have hres := ih state succ now hrest h1n h2n H3 h4
        refine ⟨fun T => ?_, fun hmax e he => ?_⟩
        · have := hres.1 T
          simpa [runCalls, hc] using this
        · have he2 : e ∈ e0 :: (runCalls cfg state rest).2.2 := by
            simpa [runCalls, hc] using he
          rcases List.mem_cons.mp he2 with heq | hmem
        -- the head error: bound its payload
          · subst heq
            have hlen : 0 < (validTimestamps cfg.windowMs now state).length :=
              lt_of_lt_of_le hmax hguard
            have hne : validTimestamps cfg.windowMs now state ≠ [] :=
              List.ne_nil_of_length_pos hlen
            have hmem0 := headD_mem hne
            have hmemf := List.mem_filter.mp hmem0
            have hvalid : now - (validTimestamps cfg.windowMs now state).headD 0 <
                cfg.windowMs := of_decide_eq_true hmemf.2
            have hle0 : (validTimestamps cfg.windowMs now state).headD 0 ≤ now :=
              h1n _ hmemf.1
            constructor
            · rw [he0]
              unfold ceilDiv1000
              have : 1 ≤ (validTimestamps cfg.windowMs now state).headD 0 +
                  cfg.windowMs - now := by omega
              omega
            · rw [he0]
              unfold ceilDiv1000
              have : (validTimestamps cfg.windowMs now state).headD 0 +
                  cfg.windowMs - now ≤ cfg.windowMs := by omega
              exact Nat.div_le_div_right (by omega)
          · exact hres.2 hmax e hmem
      · exact absurd hinv (by simp)

/-- C1: for every key of one `RateLimiter` and every monotone sequence of
`checkLimit` calls starting from the empty stored state, at most
`maxRequests` of the calls whose timestamps lie within any single trailing
`windowMs` interval succeed, and every call rejected inside the window
throws a rate-limit condition whose `resetInSeconds` payload is strictly
positive and at most `windowMs / 1000` (the configurations in the
repository have `maxRequests > 0` and `windowMs = 60000`, a multiple of
1000). -/
theorem checkLimit_sliding_window (cfg : RLConfig) (times : List Nat)
    (hsorted : sortedFrom 0 times) (hmax : 0 < cfg.maxRequests)
    (hdvd : 1000 ∣ cfg.windowMs) :
    (∀ T, countWindow cfg.windowMs (runCalls cfg [] times).2.1 T ≤
        cfg.maxRequests) ∧
    (∀ e ∈ (runCalls cfg [] times).2.2, 0 < e ∧ e ≤ cfg.windowMs / 1000) := by
  have h := runCalls_invariant cfg times [] [] 0 hsorted
    (by simp) (by simp) (fun _ _ => rfl)
    (by intro T; simp [countWindow])
  refine ⟨fun T => ?_, fun e he => ?_⟩
  · simpa using h.1 T
  · obtain ⟨h0, hle⟩ := h.2 hmax e he
    refine ⟨h0, ?_⟩
    obtain ⟨k, hk⟩ := hdvd
    rw [hk] at hle ⊢
    unfold ceilDiv1000 at hle
    omega

/-- A constant call sequence is monotone. -/
lemma sortedFrom_replicate (n t : Nat) : sortedFrom t (List.replicate n t) := by
  induction n with
  | zero => exact List.Chain.nil
  | succ m ih => rw [List.replicate_succ]; exact List.Chain.cons le_rfl ih

/-- C1 witness: 46 calls at the same instant against `maxRequests = 45`,
`windowMs = 60000` (the geo limiter's configuration): at most 45 in-window
successes, and the rejected call's `resetInSeconds` payload 60 satisfies
`0 < 60 ≤ 60`. -/
theorem checkLimit_sliding_window_witness :
    countWindow 60000 (runCalls ⟨45, 60000⟩ [] (List.replicate 46 0)).2.1 0 ≤ 45 ∧
    (0 < 60 ∧ 60 ≤ 60000 / 1000) := by
  have h := checkLimit_sliding_window ⟨45, 60000⟩ (List.replicate 46 0)
    (sortedFrom_replicate 46 0) (by decide) (by decide)
  exact ⟨h.1 0, h.2 60 (by decide)⟩

/-- Looking up the key just written. -/
lemma mapGet_mapSet_self {α : Type} (m : List (String × α)) (k : String) (v : α) :
    mapGet (mapSet m k v) k = some v := by
  induction m with
  | nil => simp [mapGet, mapSet]
  | cons p rest ih =>
    by_cases hpk : p.1 == k
    · simp [mapGet, mapSet, hpk]
    · have hset : mapSet (p :: rest) k v = p :: mapSet rest k v := by
        simp [mapSet, hpk]
      rw [hset]
      unfold mapGet at ih ⊢
      rw [List.find?_cons_of_neg (p := fun (q : String × α) => q.1 == k) _ hpk]
      exact ih

/-- Looking up a key just deleted. -/
lemma mapGet_mapDelete_self {α : Type} (m : List (String × α)) (k : String) :
    mapGet (mapDelete m k) k = none := by
  unfold mapGet mapDelete
  have : (m.filter (fun p => !(p.1 == k))).find? (fun p => p.1 == k) = none := by
    rw [List.find?_eq_none]
    intro p hp
    have := (List.mem_filter.mp hp).2
    simpa using this
  rw [this]
  rfl

/-- In a map with no duplicate keys, the looked-up value is the value of
every entry carrying that key. -/
lemma mapGet_nodup_eq {α : Type} (m : List (String × α)) (k : String) (v : α)
    (hnd : (m.map Prod.fst).Nodup) (h : mapGet m k = some v) :
    ∀ p ∈ m, p.1 = k → p.2 = v := by
  induction m with
  | nil => intro p hp; simp at hp
  | cons q rest ih =>
    intro p hp hpk
    rw [List.map_cons, List.nodup_cons] at hnd
    by_cases hqk : q.1 == k
    · have hv : q.2 = v := by
        unfold mapGet at h
        rw [List.find?_cons_of_pos (p := fun (r : String × α) => r.1 == k) _ hqk] at h
        simpa using h
      rcases List.mem_cons.mp hp with rfl | hmem
      · exact hv
      · exfalso
        apply hnd.1
        have hq1 : q.1 = k := by simpa using hqk
        rw [hq1, ← hpk]
        exact List.mem_map_of_mem Prod.fst hmem
    · have h2 : mapGet rest k = some v := by
        unfold mapGet at h ⊢
        rw [List.find?_cons_of_neg (p := fun (r : String × α) => r.1 == k) _ hqk] at h
        exact h
      rcases List.mem_cons.mp hp with rfl | hmem
      · exact absurd (by simpa using hpk) hqk
      · exact ih hnd.2 h2 p hmem hpk

/-- C10: `listTimezones` ignores its `region` argument — for every region
value the handler returns the complete deduplicated zone list, identical to
a call with no region at all; the filtered list is computed but never
returned. -/
theorem listTimezones_ignores_region (supported : List String)
    (region : Option String) :
    listTimezonesHandler supported region = listTimezonesHandler supported none := rfl

/-- C9: every registered tool name other than `geolocate` and `traceroute`
is routed to the system (default) rate limiter, because the category rules
test snake_case names (`get_system`, `get_network`, `ping_host`) while the
registered names are camelCase; in particular `pingHost` and
`getNetworkInterfaces` share the system budget. -/
theorem registered_names_route_to_system_limiter :
    ∀ name ∈ allToolNames, name ≠ "geolocate" → name ≠ "traceroute" →
      selectLimiter name = LimiterCat.system := by
  decide

/-- C9 witness: `pingHost` is registered, differs from `geolocate` and
`traceroute`, and routes to the system limiter. -/
theorem registered_names_route_to_system_limiter_witness :
    selectLimiter "pingHost" = LimiterCat.system :=
  registered_names_route_to_system_limiter "pingHost" (by decide) (by decide)
    (by decide)

/-- C4: calling an unregistered tool name throws `MethodNotFound`, invokes
no handler, leaves every rate limiter's per-category state untouched, and
emits no notification. -/
theorem unknown_tool_short_circuits (registry : List (String × HandlerSpec))
    (st : DispatchState) (name : String) (now : Nat)
    (h : mapGet registry name = none) :
    dispatch registry st name now =
      (.thrown methodNotFound ("Tool not found: " ++ name) none, false, st, []) := by
  unfold dispatch
  rw [h]

/-- C4 witness: a name absent from a concrete registry. -/
theorem unknown_tool_short_circuits_witness :
    dispatch [] ⟨[], [], []⟩ "noSuchTool" 0 =
      (.thrown methodNotFound "Tool not found: noSuchTool" none, false,
        ⟨[], [], []⟩, []) :=
  unknown_tool_short_circuits [] ⟨[], [], []⟩ "noSuchTool" 0 rfl

/-- C5: the TTL cache contract.  `get` immediately after `set` returns the
value; any value `get` returns comes from an entry whose age is at most
`ttl` at the moment of the read; and once an entry's age exceeds `ttl`,
`get` returns absent, evicts the entry, and the key is also absent from
`prune` output (keys of a JS `Map` are unique, hence the `Nodup`
hypothesis). -/
theorem cache_ttl_contract {α : Type} (c : CacheState α) (k : String) (v : α)
    (now : Nat) :
    (cacheGet (cacheSet c k v now) k now).1 = some v ∧
    (∀ w, (cacheGet c k now).1 = some w →
      ∃ ts, mapGet c.entries k = some (w, ts) ∧ now - ts ≤ c.ttl) ∧
    (∀ w ts, (c.entries.map Prod.fst).Nodup →
      mapGet c.entries k = some (w, ts) → c.ttl < now - ts →
      (cacheGet c k now).1 = none ∧
      mapGet (cacheGet c k now).2.entries k = none ∧
      mapGet (cachePrune c now).entries k = none) := by
  refine ⟨?_, ?_, ?_⟩
  · have h := mapGet_mapSet_self c.entries k (v, now)
    simp [cacheGet, cacheSet, h]
  · intro w hw
    cases hm : mapGet c.entries k with
    | none => simp [cacheGet, hm] at hw
    | some pair =>
      obtain ⟨v0, ts⟩ := pair
      by_cases hexp : c.ttl < now - ts
      · simp [cacheGet, hm, hexp] at hw
      · simp [cacheGet, hm, hexp] at hw
        exact ⟨ts, by subst hw; rfl, Nat.not_lt.mp hexp⟩
  · intro w ts hnd hm hexp
    have huniq := mapGet_nodup_eq c.entries k (w, ts) hnd hm
    refine ⟨?_, ?_, ?_⟩
    · simp [cacheGet, hm, hexp]
    · simp [cacheGet, hm, hexp, mapGet_mapDelete_self]
    · unfold cachePrune mapGet
      have hfind : (c.entries.filter
          (fun p => !(decide (c.ttl < now - p.2.2)))).find?
          (fun p => p.1 == k) = none := by
        rw [List.find?_eq_none]
        intro p hp
        have hkeep := (List.mem_filter.mp hp).2
        have hmem := (List.mem_filter.mp hp).1
        intro hpk
        have hp2 : p.2 = (w, ts) := huniq p hmem (by simpa using hpk)
        rw [hp2] at hkeep
        simp [hexp] at hkeep
      simp [hfind]

/-- C5 witness: a fresh write is readable back, and an entry of age 101
against `ttl = 100` is gone from `prune` output. -/
theorem cache_ttl_contract_witness :
    (cacheGet (cacheSet (⟨[], 100⟩ : CacheState Nat) "k" 5 0) "k" 0).1 = some 5 ∧
    mapGet (cachePrune (⟨[("k", (5, 0))], 100⟩ : CacheState Nat) 101).entries "k" =
      none := by
  refine ⟨(cache_ttl_contract ⟨[], 100⟩ "k" 5 0).1, ?_⟩
  exact ((cache_ttl_contract (⟨[("k", (5, 0))], 100⟩ : CacheState Nat) "k" 5
    101).2.2 5 0 (by decide) (by decide) (by decide)).2.2

/-- The `current` counter accumulates the increments, independently of
delivery outcomes. -/
lemma runReports_current (incs : List Nat) :
    ∀ (d : Nat → Bool) (i : Nat) (st : ReporterState),
      (runReports incs d i st).current = st.current + incs.sum := by
  induction incs with
  | nil => intro d i st; simp [runReports]
  | cons inc rest ih =>
    intro d i st
    rw [runReports, ih]
    cases d i <;> simp [reportOp] <;> omega

/-- `complete()` never touches the counter. -/
lemma completeOp_current (delivered : Bool) (st : ReporterState) :
    (completeOp delivered st).current = st.current := by
  cases delivered <;> rfl

/-- `error()` never touches the counter. -/
lemma errorOp_current (delivered : Bool) (st : ReporterState) :
    (errorOp delivered st).current = st.current := by
  cases delivered <;> rfl

/-- C6: notification-send failures inside the `ProgressReporter` are caught
and never propagate — the invocation's handler result is returned untouched
and both it and the reporter's `current` counter are identical whichever
notification sends succeed or fail. -/
theorem notification_failures_never_propagate (h : HandlerSpec)
    (d d2 : Nat → Bool) (dt dt2 : Bool) :
    (invokeWithReporter h d dt).1 = h.outcome ∧
    (invokeWithReporter h d dt).1 = (invokeWithReporter h d2 dt2).1 ∧
    (invokeWithReporter h d dt).2.current =
      (invokeWithReporter h d2 dt2).2.current := by
  cases ho : h.outcome with
  | ok r =>
    refine ⟨?_, ?_, ?_⟩ <;>
      simp [invokeWithReporter, ho, completeOp_current, runReports_current]
  | error e =>
    refine ⟨?_, ?_, ?_⟩ <;>
      simp [invokeWithReporter, ho, errorOp_current, runReports_current]

/-- The handler's own `progress.report` calls contribute no completion
notification. -/
lemma countP_complete_replicate (n : Nat) :
    (List.replicate n ProgressEvent.progress).countP
      (fun e => decide (e = ProgressEvent.complete)) = 0 := by
  induction n with
  | zero => rfl
  | succ m ih => simpa [List.replicate_succ, List.countP_cons] using ih

/-- The handler's own `progress.report` calls contribute no error
notification. -/
lemma countP_errorEv_replicate (n : Nat) :
    (List.replicate n ProgressEvent.progress).countP isErrorEv = 0 := by
  induction n with
  | zero => rfl
  | succ m ih => simpa [List.replicate_succ, List.countP_cons, isErrorEv] using ih

/-- C2: for every invocation whose handler is actually invoked (the call
passed tool lookup and the rate-limit check), exactly one terminal
notification is emitted: a handler that returns normally yields one
completion and no error notification; a handler that throws yields one
error notification carrying the error's message and no completion; never
both, never neither. -/
theorem invoked_handler_one_terminal_notification
    (registry : List (String × HandlerSpec)) (st : DispatchState)
    (name : String) (now : Nat) (h : HandlerSpec)
    (hl : mapGet registry name = some h)
    (hinv : (dispatch registry st name now).2.1 = true) :
    countComplete (dispatch registry st name now).2.2.2 +
      countErrorEv (dispatch registry st name now).2.2.2 = 1 ∧
    (∀ r, h.outcome = .ok r →
      countComplete (dispatch registry st name now).2.2.2 = 1 ∧
      countErrorEv (dispatch registry st name now).2.2.2 = 0) ∧
    (∀ e, h.outcome = .error e →
      countErrorEv (dispatch registry st name now).2.2.2 = 1 ∧
      countComplete (dispatch registry st name now).2.2.2 = 0 ∧
      (dispatch registry st name now).2.2.2.getLast? =
        some (.errorEv (errMessage e))) := by
  cases hlc : limCheck st (selectLimiter name) name now with
  | error r =>
    rw [show (dispatch registry st name now).2.1 = false by
      simp [dispatch, hl, hlc]] at hinv
    exact absurd hinv (by simp)
  | ok st2 =>
    cases ho : h.outcome with
    | ok res =>
      have hev : (dispatch registry st name now).2.2.2 =
          h.reports.map (fun _ => ProgressEvent.progress) ++ [.complete] := by
        simp [dispatch, hl, hlc, ho]
      rw [hev]
      refine ⟨?_, fun r hr => ⟨?_, ?_⟩, fun e he => ?_⟩
      · simp [countComplete, countErrorEv, List.countP_append, isErrorEv,
          countP_complete_replicate, countP_errorEv_replicate]
      · simp [countComplete, List.countP_append, countP_complete_replicate]
      · simp [countErrorEv, List.countP_append, isErrorEv,
          countP_errorEv_replicate]
      · exact Except.noConfusion he
    | error e0 =>
      have hev : (dispatch registry st name now).2.2.2 =
          h.reports.map (fun _ => ProgressEvent.progress) ++
            [.errorEv (errMessage e0)] := by
        cases e0 <;> simp [dispatch, hl, hlc, ho]
      rw [hev]
      refine ⟨?_, fun r hr => ?_, fun e he => ?_⟩
      · simp [countComplete, countErrorEv, List.countP_append, isErrorEv,
          countP_complete_replicate, countP_errorEv_replicate]
      · exact Except.noConfusion hr
      · have he2 : e0 = e := by injection he
        subst he2
        refine ⟨?_, ?_, ?_⟩
        · simp [countErrorEv, List.countP_append, isErrorEv,
            countP_errorEv_replicate]
        · simp [countComplete, List.countP_append, countP_complete_replicate]
        · exact List.getLast?_concat _

/-- C2 witness: a one-tool registry whose handler reports once and returns
normally emits exactly one terminal notification. -/
theorem invoked_handler_one_terminal_notification_witness :
    countComplete (dispatch [("toolA", ⟨[1], .ok ⟨[⟨"text", "hi"⟩], false⟩⟩)]
        ⟨[], [], []⟩ "toolA" 0).2.2.2 +
      countErrorEv (dispatch [("toolA", ⟨[1], .ok ⟨[⟨"text", "hi"⟩], false⟩⟩)]
        ⟨[], [], []⟩ "toolA" 0).2.2.2 = 1 :=
  (invoked_handler_one_terminal_notification
    [("toolA", ⟨[1], .ok ⟨[⟨"text", "hi"⟩], false⟩⟩)] ⟨[], [], []⟩ "toolA" 0
    ⟨[1], .ok ⟨[⟨"text", "hi"⟩], false⟩⟩ rfl rfl).1

/-- A registry with one registered tool, used for concrete dispatch runs. -/
def sampleRegistry : List (String × HandlerSpec) :=
  [("pingHost", ⟨[], .ok ⟨[⟨"text", "pong"⟩], false⟩⟩)]

/-- C3 counterexample: a call naming an unregistered tool does NOT produce
a response envelope — the `McpToolError` is rethrown to the protocol layer,
so not every failing invocation is normalised to the envelope shape. -/
theorem unknown_tool_failure_is_not_an_envelope :
    (dispatch sampleRegistry ⟨[], [], []⟩ "noSuchTool" 0).1.isEnvelope = false :=
  rfl

/-- C3 (amended): the dispatcher's `catch` rethrows every `McpToolError` —
unknown-tool failures, rate-limit rejections and `McpToolError` thrown by a
handler all escape as protocol-level errors carrying code and message —
while any other (generic) handler error is normalised exactly once into the
envelope `{content: [{type: 'text', text: 'Internal error: …'}]}` with the
error flag set. -/
theorem failure_shapes (registry : List (String × HandlerSpec))
    (st : DispatchState) (name : String) (now : Nat) :
    (mapGet registry name = none →
      (dispatch registry st name now).1 =
        .thrown methodNotFound ("Tool not found: " ++ name) none) ∧
    (∀ h r, mapGet registry name = some h →
      limCheck st (selectLimiter name) name now = .error r →
      (dispatch registry st name now).1 =
        .thrown internalError (catMessage (selectLimiter name)) (some r)) ∧
    (∀ h m st2, mapGet registry name = some h →
      limCheck st (selectLimiter name) name now = .ok st2 →
      h.outcome = .error (.generic m) →
      (dispatch registry st name now).1 =
        .envelope [⟨"text", "Internal error: " ++ m⟩] true) ∧
    (∀ h c mg dta st2, mapGet registry name = some h →
      limCheck st (selectLimiter name) name now = .ok st2 →
      h.outcome = .error (.mcp c mg dta) →
      (dispatch registry st name now).1 = .thrown c mg dta) := by
  refine ⟨fun hnone => ?_, fun h r hl hlc => ?_, fun h m st2 hl hlc ho => ?_,
    fun h c mg dta st2 hl hlc ho => ?_⟩
  · simp [dispatch, hnone]
  · simp [dispatch, hl, hlc]
  · simp [dispatch, hl, hlc, ho, handleToolError]
  · simp [dispatch, hl, hlc, ho]

/-- C3 (amended) witness: a handler throwing a generic `Error` is
normalised to the single-text-item envelope with the error flag. -/
theorem failure_shapes_witness :
    (dispatch [("toolB", ⟨[], .error (.generic "boom")⟩)] ⟨[], [], []⟩
        "toolB" 0).1 =
      .envelope [⟨"text", "Internal error: boom"⟩] true :=
  (failure_shapes [("toolB", ⟨[], .error (.generic "boom")⟩)] ⟨[], [], []⟩
    "toolB" 0).2.2.1 ⟨[], .error (.generic "boom")⟩ "boom"
    ⟨[("toolB", [0])], [], []⟩ rfl rfl rfl

/-- C7 counterexample: on the counter-based `RateLimiter`
(`src/utils/cache.ts`, cited by the claim), `getRemainingRequests` is not
side-effect-free — once the window has lapsed it rewrites `resetTime`, so a
later `getTimeToReset` at the same instant changes from 0 to `windowMs`
(here 0 to 60000 at `now = 150` with `resetTime = 100`). -/
theorem simpleGetRemaining_alters_later_getTimeToReset :
    simpleGetTimeToReset
        ((simpleGetRemaining ⟨60000, 45, 3, 100⟩ 150).2) 150 ≠
      simpleGetTimeToReset ⟨60000, 45, 3, 100⟩ 150 := by
  decide

/-- C7 (amended): introspection is harmless except for one effect.  For the
map-based `RateLimiter` (`src/utils/rate-limiter.ts`) the reads are pure
functions of stored state and clock, and after `windowMs` elapses with no
further requests `getRemainingRequests` returns `maxRequests` again.  For
the counter-based limiter (`src/utils/cache.ts`), `getRemainingRequests`
returns a stable value, leaves the result of a later `canMakeRequest` or
`getRemainingRequests` at the same instant unchanged, and leaves the state
untouched while the window is active — but once the window has lapsed it
resets the counter and deadline, so a later `getTimeToReset` at the same
instant reads `windowMs` instead of 0. -/
theorem introspection_contract (cfg : RLConfig) (timestamps : List Nat)
    (t now : Nat) (st : SimpleRL) :
    ((∀ s ∈ timestamps, s ≤ t) → t + cfg.windowMs ≤ now →
      getRemainingRequests cfg timestamps now = cfg.maxRequests) ∧
    ((simpleGetRemaining (simpleGetRemaining st now).2 now).1 =
      (simpleGetRemaining st now).1) ∧
    ((canMakeRequest (simpleGetRemaining st now).2 now).1 =
      (canMakeRequest st now).1) ∧
    (now < st.resetTime → (simpleGetRemaining st now).2 = st) ∧
    (st.resetTime ≤ now →
      simpleGetTimeToReset st now = 0 ∧
      simpleGetTimeToReset (simpleGetRemaining st now).2 now = st.windowMs) := by
  refine ⟨fun hle hwin => ?_, ?_, ?_, fun hact => ?_, fun hlap => ?_⟩
  · have hnil : validTimestamps cfg.windowMs now timestamps = [] := by
      unfold validTimestamps
      rw [List.filter_eq_nil_iff]
      intro s hs
      have := hle s hs
      simp only [decide_eq_true_eq]
      omega
    unfold getRemainingRequests
    rw [hnil]
    simp
  · by_cases hrt : st.resetTime ≤ now
    · by_cases hw : st.windowMs = 0 <;>
        simp [simpleGetRemaining, hrt, hw]
    · simp [simpleGetRemaining, hrt]
  · by_cases hrt : st.resetTime ≤ now
    · by_cases hw : st.windowMs = 0 <;>
        simp [simpleGetRemaining, canMakeRequest, hrt, hw]
    · simp [simpleGetRemaining, canMakeRequest, hrt]
  · simp [simpleGetRemaining, Nat.not_le.mpr hact]
  · refine ⟨?_, ?_⟩
    · unfold simpleGetTimeToReset
      omega
    · simp [simpleGetRemaining, hlap, simpleGetTimeToReset]

/-- C7 (amended) witness: a pruned-out timestamp restores the full budget
on the map-based limiter, and the counter-based limiter's lapse divergence
evaluates as stated. -/
theorem introspection_contract_witness :
    getRemainingRequests ⟨45, 60000⟩ [0] 60000 = 45 ∧
    simpleGetTimeToReset (⟨60000, 45, 3, 100⟩ : SimpleRL) 150 = 0 ∧
    simpleGetTimeToReset
      ((simpleGetRemaining (⟨60000, 45, 3, 100⟩ : SimpleRL) 150).2) 150 = 60000 := by
  have h := introspection_contract ⟨45, 60000⟩ [0] 0 60000 ⟨60000, 45, 3, 100⟩
  have h2 := h.2.2.2.2 (by decide)
  exact ⟨h.1 (by decide) (by decide), h2.1, h2.2⟩

/-- The module state of `src/tools/geo.ts` as initialised at load time
(`Date.now() = 0`): empty 5-minute cache, fresh 45-per-minute limiter. -/
def geoState0 : GeoState := ⟨⟨[], 300000⟩, SimpleRL.mk0 45 60000 0⟩

/-- An upstream ip-api.com reply with `status: "fail"` (ip-api answers
HTTP 200 with a `fail` status for an unresolvable query). -/
def geoFailFetch : Except String FetchResult :=
  .ok ⟨⟨"fail", "bad.invalid", ""⟩, 44, 60⟩

/-- C8 counterexample: two successive `geolocate` calls with the identical
query 1 second apart, but the first upstream reply has `status: "fail"` —
the handler caches only successful responses, so the second call fetches
again and reports source `"api"`, not `"cache"`. -/
theorem second_geolocate_refetches_after_failed_lookup :
    (geolocate (geolocate geoState0 "bad.invalid" 0 geoFailFetch).2.1
        "bad.invalid" 1000 geoFailFetch).2.2 = true ∧
    (geolocate (geolocate geoState0 "bad.invalid" 0 geoFailFetch).2.1
        "bad.invalid" 1000 geoFailFetch).1 =
      .ok ⟨"api", ⟨"fail", "bad.invalid", ""⟩⟩ :=
  ⟨rfl, rfl⟩

/-- C8 (amended): for two successive `geolocate` calls with an identical
query where the cache has no entry for the query, the first call is
admitted by the limiter and its upstream reply has `status: "success"` (the
handler caches only successful responses), every second call within the
cache ttl answers from the cache — it reports source `"cache"` with the
cached data and performs no external fetch. -/
theorem geolocate_second_call_hits_cache (st : GeoState) (q : String)
    (t1 t2 : Nat) (res : FetchResult) (fetch2 : Except String FetchResult)
    (hmiss : mapGet st.cache.entries q = none)
    (hallow : (canMakeRequest st.limiter t1).1 = true)
    (hok : res.data.status = "success")
    (httl : t2 - t1 ≤ st.cache.ttl) :
    (geolocate (geolocate st q t1 (.ok res)).2.1 q t2 fetch2).1 =
      .ok ⟨"cache", res.data⟩ ∧
    (geolocate (geolocate st q t1 (.ok res)).2.1 q t2 fetch2).2.2 = false := by
  have hcg1 : cacheGet st.cache q t1 = (none, st.cache) := by
    simp [cacheGet, hmiss]
  have hcm : canMakeRequest st.limiter t1 =
      (true, (canMakeRequest st.limiter t1).2) := by
    rw [← hallow]
  have h1 : geolocate st q t1 (.ok res) =
      (.ok ⟨"api", res.data⟩,
        ⟨cacheSet st.cache q res.data t1,
          incrementRequests (canMakeRequest st.limiter t1).2⟩, true) := by
    rw [geolocate, hcg1]
    simp only []
    rw [hcm]
    simp only [hok, beq_self_eq_true, if_true]
  have hcg2 : cacheGet (cacheSet st.cache q res.data t1) q t2 =
      (some res.data, cacheSet st.cache q res.data t1) := by
    have hlook := mapGet_mapSet_self st.cache.entries q (res.data, t1)
    simp [cacheGet, cacheSet, hlook, Nat.not_lt.mpr httl]
  rw [h1]
  simp [geolocate, hcg2]

/-- C8 (amended) witness: a successful lookup at time 0 is served from the
cache 1 second later, with no fetch. -/
theorem geolocate_second_call_hits_cache_witness :
    (geolocate (geolocate geoState0 "8.8.8.8" 0
        (.ok ⟨⟨"success", "8.8.8.8", "US"⟩, 44, 60⟩)).2.1
      "8.8.8.8" 1000 geoFailFetch).1 =
      .ok ⟨"cache", ⟨"success", "8.8.8.8", "US"⟩⟩ :=
  (geolocate_second_call_hits_cache geoState0 "8.8.8.8" 0 1000
    ⟨⟨"success", "8.8.8.8", "US"⟩, 44, 60⟩ geoFailFetch
    rfl rfl rfl (by decide)).1

end S2P
